import Mathlib

/-!
Verification of the PocketTopo binary-format decoder (`src/parser.rs`).

The decoder is embedded shallowly: the input buffer is a `List Nat` of byte
values, and every nom parser becomes a function from the input to a result
that is either `ok` (remaining input plus value), a recoverable error
(nom's `Err::Error`), a non-recoverable failure (nom's `Err::Failure`), or
`panicked` (an aborted computation, used where the Rust code can panic).
Errors mirror the repository's `ParseError` enum.  The nom combinators used
by the source (`tag`, `take`, `take_while`, `alt`, `many_till`,
`length_count` and the little-endian number readers) are embedded with
their nom 7 semantics:

* the repository's `impl nom::error::ParseError for ParseError` maps every
  nom-generated error kind to `UnknownError` (`from_error_kind`) and makes
  `append` return the existing error unchanged, while the trait's default
  `or` (used by `alt`) keeps the second of two errors;
* `alt` tries the second parser whenever the first returns a recoverable
  error, and combines two recoverable errors with `or`, i.e. keeps the
  second one;
* `many_till` repeatedly tries the terminator and then the element parser,
  failing if the element parser fails or stops consuming input.
-/

set_option linter.unusedVariables false

namespace PocketTopo

/-- Mirrors the repository's `ParseError` enum (`src/parser.rs`).  The
`Utf8Error` payload is dropped: the claims never inspect it. -/
inductive PError
  | invalidColor (b : Nat)
  | invalidHeader (bs : List Nat)
  | undefinedStation
  | unknownError
  | unsupportedVersion (b : Nat)
  | utf8Error
deriving DecidableEq

/-- Result of running a parser: `ok rest val`, a recoverable nom error
(`Err::Error`), a non-recoverable one (`Err::Failure`), or a Rust panic. -/
inductive PResult (α : Type)
  | ok (rest : List Nat) (val : α)
  | err (e : PError)
  | fail (e : PError)
  | panicked
deriving DecidableEq

/-- A parser over a byte buffer. -/
def Parser (α : Type) : Type := List Nat → PResult α

instance : Monad Parser where
  pure a := fun i => .ok i a
  bind p f := fun i =>
    match p i with
    | .ok r v => f v r
    | .err e => .err e
    | .fail e => .fail e
    | .panicked => .panicked

/-- Parser that returns the given recoverable error (`Err::Error`). -/
def errP (e : PError) : Parser α := fun _ => .err e

/-- Parser that returns the given non-recoverable error (`Err::Failure`). -/
def failP (e : PError) : Parser α := fun _ => .fail e

/-- Parser marking a Rust panic (an uncatchable abort, not a returned error). -/
def panicP : Parser α := fun _ => .panicked

/-- Models nom's default `ParseError::or`, which keeps the second error;
the repository does not override it. -/
def errorOr (e1 e2 : PError) : PError := e2

/-- nom's `bytes::complete::tag`: match a literal byte sequence.  A mismatch
or too-short input is a recoverable error, mapped by the repository's
`from_error_kind` to `UnknownError`. -/
def tag (bs : List Nat) : Parser (List Nat) := fun i =>
  if List.take bs.length i = bs then .ok (List.drop bs.length i) bs
  else .err .unknownError

/-- nom's `bytes::complete::take`: take exactly `n` bytes, a recoverable
`UnknownError` if fewer remain. -/
def take (n : Nat) : Parser (List Nat) := fun i =>
  if n ≤ i.length then .ok (List.drop n i) (List.take n i)
  else .err .unknownError

/-- nom's `number::complete::le_u8`. -/
def le_u8 : Parser Nat := fun i =>
  match i with
  | [] => .err .unknownError
  | b :: r => .ok r b

/-- nom's `le_u32`: four bytes, little endian. -/
def le_u32 : Parser Nat := fun i =>
  match i with
  | b0 :: b1 :: b2 :: b3 :: r =>
      .ok r (b0 + 256 * b1 + 65536 * b2 + 16777216 * b3)
  | _ => .err .unknownError

/-- Reinterpret a `w`-bit unsigned value as a two's-complement signed one. -/
def toSigned (w v : Nat) : Int := if v < 2 ^ (w - 1) then (v : Int) else (v : Int) - 2 ^ w

/-- nom's `le_i16`: two bytes, little endian, two's complement. -/
def le_i16 : Parser Int := fun i =>
  match i with
  | b0 :: b1 :: r => .ok r (toSigned 16 (b0 + 256 * b1))
  | _ => .err .unknownError

/-- nom's `le_i32`. -/
def le_i32 : Parser Int := fun i =>
  match i with
  | b0 :: b1 :: b2 :: b3 :: r =>
      .ok r (toSigned 32 (b0 + 256 * b1 + 65536 * b2 + 16777216 * b3))
  | _ => .err .unknownError

/-- nom's `le_i64`. -/
def le_i64 : Parser Int := fun i =>
  match i with
  | b0 :: b1 :: b2 :: b3 :: b4 :: b5 :: b6 :: b7 :: r =>
      .ok r (toSigned 64 (b0 + 256 * b1 + 65536 * b2 + 16777216 * b3 +
        4294967296 * b4 + 1099511627776 * b5 + 281474976710656 * b6 +
        72057594037927936 * b7))
  | _ => .err .unknownError

/-- nom's `multi::count` body as used by `length_count`: run the parser the
given number of times, collecting results in order (the repository's
`append` leaves errors unchanged). -/
def countP (f : Parser α) : Nat → Parser (List α)
  | 0 => pure []
  | n + 1 => do
    let x ← f
    let xs ← countP f n
    pure (x :: xs)

/-- nom's `multi::length_count`: a count read by `num`, then that many
items. -/
def length_count (num : Parser Nat) (f : Parser α) : Parser (List α) := do
  let n ← num
  countP f n

/-- nom's `branch::alt` on two parsers: on a recoverable error of the first,
try the second; two recoverable errors are combined with `or` (which keeps
the second) and `append` with `ErrorKind::Alt` (which returns it
unchanged). -/
def alt (p q : Parser α) : Parser α := fun i =>
  match p i with
  | .ok r v => .ok r v
  | .err e1 =>
    match q i with
    | .ok r v => .ok r v
    | .err e2 => .err (errorOr e1 e2)
    | .fail e => .fail e
    | .panicked => .panicked
  | .fail e => .fail e
  | .panicked => .panicked

/- ----------------------------------------------------------------- -/
/- Data model (`src/lib.rs`).  Strings are kept as their UTF-8 bytes. -/

structure Point where
  x : Int
  y : Int
deriving DecidableEq

structure Mapping where
  origin : Point
  scale : Int
deriving DecidableEq

inductive Color
  | Black
  | Blue
  | Brown
  | Gray
  | Green
  | Orange
  | Red
deriving DecidableEq

inductive StationId
  | MajorMinor (major minor : Nat)
  | Plain (v : Nat)
deriving DecidableEq

/-- The `Element` enum with the `Polygon` and `CrossSection` payload structs
inlined into the constructors. -/
inductive Element
  | Polygon (points : List Point) (color : Color)
  | CrossSection (position : Point) (station : StationId) (direction : Int)
deriving DecidableEq

structure Drawing where
  mapping : Mapping
  elements : List Element
deriving DecidableEq

/-- A calendar timestamp as Unix seconds plus a nanosecond field, the data
chrono's `NaiveDateTime::from_timestamp` is built from. -/
structure DateTime where
  secs : Int
  nsecs : Nat
deriving DecidableEq

structure Trip where
  time : DateTime
  comment : List Nat
  declination : Int
deriving DecidableEq

structure Reference where
  station : Option StationId
  east : Int
  north : Int
  altitude : Int
  comment : List Nat
deriving DecidableEq

/-- The `Shot` struct; `from`/`to` are renamed `from_`/`to_` because `from`
is a Lean keyword.  `flags` keeps the raw byte of the `ShotFlags` bitset. -/
structure Shot where
  from_ : Option StationId
  to_ : Option StationId
  distance : Int
  azimuth : Int
  inclination : Int
  flags : Nat
  roll : Nat
  trip_index : Int
  comment : Option (List Nat)
deriving DecidableEq

structure Document where
  references : List Reference
  shots : List Shot
  trips : List Trip
  mapping : Mapping
  outline : Drawing
  sideview : Drawing
deriving DecidableEq

/- ----------------------------------------------------------------- -/
/- UTF-8 validity, modelling `std::str::from_utf8`. -/

/-- One step of the standard UTF-8 acceptance automaton (state 0 is both the
initial and the only accepting state; states 1, 2, 5 expect that many
generic continuation bytes; 3, 4, 6, 7 expect the restricted first
continuation byte after `E0`, `ED`, `F0`, `F4`). -/
def utf8Step (s b : Nat) : Option Nat :=
  match s with
  | 0 =>
    if b ≤ 127 then some 0
    else if 194 ≤ b ∧ b ≤ 223 then some 1
    else if b = 224 then some 3
    else if 225 ≤ b ∧ b ≤ 236 then some 2
    else if b = 237 then some 4
    else if 238 ≤ b ∧ b ≤ 239 then some 2
    else if b = 240 then some 6
    else if 241 ≤ b ∧ b ≤ 243 then some 5
    else if b = 244 then some 7
    else none
  | 1 => if 128 ≤ b ∧ b ≤ 191 then some 0 else none
  | 2 => if 128 ≤ b ∧ b ≤ 191 then some 1 else none
  | 3 => if 160 ≤ b ∧ b ≤ 191 then some 1 else none
  | 4 => if 128 ≤ b ∧ b ≤ 159 then some 1 else none
  | 5 => if 128 ≤ b ∧ b ≤ 191 then some 2 else none
  | 6 => if 144 ≤ b ∧ b ≤ 191 then some 2 else none
  | 7 => if 128 ≤ b ∧ b ≤ 143 then some 2 else none
  | _ => none

/-- Run of the UTF-8 automaton. -/
def utf8Run (s : Nat) : List Nat → Bool
  | [] => s == 0
  | b :: rest =>
    match utf8Step s b with
    | some s1 => utf8Run s1 rest
    | none => false

/-- Models the validity check done by `std::str::from_utf8`: the byte list
is well-formed UTF-8. -/
def isValidUtf8 (l : List Nat) : Bool := utf8Run 0 l

/- ----------------------------------------------------------------- -/
/- The decoders of `src/parser.rs`. -/

def BIT_7_SET : Nat := 128

/-- The accumulation loop of `parse_variable_length_little_endian_int`:
each byte's low 7 bits are shifted left by `7 * index` and or-ed into a
`usize` accumulator.  Rust (release) masks a 64-bit shift amount to its low
6 bits and keeps the low 64 bits of the result, hence the `% 64` and
`% 2 ^ 64`. -/
def varintAccum : Nat → List Nat → Nat
  | _, [] => 0
  | idx, v :: rest =>
    (((v &&& 127) <<< ((7 * idx) % 64)) % 2 ^ 64) ||| varintAccum (idx + 1) rest

/-- `parse_variable_length_little_endian_int`: `take_while` the bytes with
bit 7 set, then `take(1)` the terminating byte (a recoverable
`UnknownError` when the input ends first), then accumulate the 7-bit
groups least-significant first. -/
def parse_variable_length_little_endian_int : Parser Nat := fun i =>
  let bytes := i.takeWhile (fun b => b &&& BIT_7_SET == BIT_7_SET)
  let rest := i.dropWhile (fun b => b &&& BIT_7_SET == BIT_7_SET)
  match rest with
  | [] => .err .unknownError
  | byte :: rest1 => .ok rest1 (varintAccum 0 (bytes ++ [byte]))

/-- `parse_string`: a varint length, that many bytes, and a UTF-8 validity
check whose failure is the recoverable error `Utf8Error`. -/
def parse_string : Parser (List Nat) := do
  let length ← parse_variable_length_little_endian_int
  let bytes ← take length
  if isValidUtf8 bytes then pure bytes else errP .utf8Error

def HEADER : List Nat := [84, 111, 112]

def VERSION : Nat := 3

/-- `parse_header`: match the magic `"Top"`; on any tag error, a
`Failure` carrying the first up-to-3 input bytes
(`input.chunks(3).next().unwrap_or(b"")`). -/
def parse_header : Parser (List Nat) := fun i =>
  match tag HEADER i with
  | .ok r v => .ok r v
  | _ => .fail (.invalidHeader (List.take 3 i))

/-- `parse_version`: one byte that must equal `VERSION = 3`. -/
def parse_version : Parser Nat := do
  let version ← le_u8
  if version ≠ VERSION then failP (.unsupportedVersion version)
  else pure version

/-- `parse_point`. -/
def parse_point : Parser Point := do
  let x ← le_i32
  let y ← le_i32
  pure { x := x, y := y }

/-- `parse_mapping`. -/
def parse_mapping : Parser Mapping := do
  let origin ← parse_point
  let scale ← le_i32
  pure { origin := origin, scale := scale }

def UNDEFINED : Nat := 2147483648

/-- The match of `parse_station_id` on the raw `u32` value: `0x80000000`
means "no station", a set top bit means a plain id stored offset by one,
and otherwise the value splits into a `major << 16 | minor` pair (the
`as u16` casts keep the low 16 bits). -/
def decode_station_id (station_id : Nat) : Option StationId :=
  if station_id = UNDEFINED then none
  else if station_id &&& UNDEFINED = UNDEFINED then
    some (.Plain ((station_id ^^^ UNDEFINED) - 1))
  else
    some (.MajorMinor ((station_id >>> 16) &&& 65535) (station_id &&& 65535))

/-- `parse_station_id`: a little-endian `u32` put through
`decode_station_id`. -/
def parse_station_id : Parser (Option StationId) := do
  let station_id ← le_u32
  pure (decode_station_id station_id)

def NANOSECONDS : Int := 10000000

def SECONDS_FROM_DOT_NET_EPOCH_TO_UNIX_EPOCH : Int := 62135596800

/-- Models chrono 0.4's `NaiveDateTime::from_timestamp`, which panics on an
invalid nanosecond argument (2 000 000 000 or more); the panic is
represented by `panicP`.  chrono also panics when the seconds fall outside
its representable calendar range (about ±8.27e12 from the Unix epoch), but
every value of `ticks.tdiv 10^7 - 62135596800` for a 64-bit `ticks` is
inside that range, so only the nanosecond check is modelled. -/
def fromTimestampP (secs : Int) (nsecs : Nat) : Parser DateTime :=
  if nsecs < 2000000000 then pure { secs := secs, nsecs := nsecs } else panicP

/-- `parse_datetime`: a little-endian `i64` tick count; Rust's `/` and `%`
on `i64` truncate toward zero (`tdiv`/`tmod`), and `as u32` keeps the low
32 bits. -/
def parse_datetime : Parser DateTime := do
  let ticks ← le_i64
  let seconds := ticks.tdiv NANOSECONDS - SECONDS_FROM_DOT_NET_EPOCH_TO_UNIX_EPOCH
  let nsecs := ((ticks.tmod NANOSECONDS).emod (2 ^ 32)).toNat
  fromTimestampP seconds nsecs

/-- The color table of `parse_polygon`. -/
def colorOfByte (b : Nat) : Option Color :=
  match b with
  | 1 => some .Black
  | 2 => some .Gray
  | 3 => some .Brown
  | 4 => some .Blue
  | 5 => some .Red
  | 6 => some .Green
  | 7 => some .Orange
  | _ => none

/-- `parse_polygon`: tag byte 1, a `length_count` of points, then the color
byte; an out-of-range color is the recoverable error
`InvalidColor(byte)`. -/
def parse_polygon : Parser Element := do
  let _ ← tag [1]
  let points ← length_count le_u32 parse_point
  let color ← le_u8
  match colorOfByte color with
  | some c => pure (.Polygon points c)
  | none => errP (.invalidColor color)

/-- `parse_cross_section`: tag byte 3, a point, a station id, a direction;
an undefined station is the recoverable error `UndefinedStation`. -/
def parse_cross_section : Parser Element := do
  let _ ← tag [3]
  let position ← parse_point
  let station ← parse_station_id
  let direction ← le_i32
  match station with
  | some s => pure (.CrossSection position s direction)
  | none => errP .undefinedStation

/-- `parse_element = alt((parse_polygon, parse_cross_section))`. -/
def parse_element : Parser Element := alt parse_polygon parse_cross_section

/-- nom 7's `many_till(parse_element, tag([0x0]))` loop, with explicit fuel
(the loop also rejects a non-consuming element parser, which bounds the
number of iterations by the input length). -/
def many_till_elements_fuel : Nat → Parser (List Element)
  | 0 => fun _ => .err .unknownError
  | fuel + 1 => fun i =>
    match tag [0] i with
    | .ok i1 _ => .ok i1 []
    | .err _ =>
      match parse_element i with
      | .ok i1 o =>
        if i1.length = i.length then .err .unknownError
        else
          match many_till_elements_fuel fuel i1 with
          | .ok i2 os => .ok i2 (o :: os)
          | .err e => .err e
          | .fail e => .fail e
          | .panicked => .panicked
      | .err e => .err e
      | .fail e => .fail e
      | .panicked => .panicked
    | .fail e => .fail e
    | .panicked => .panicked

/-- The element list of a drawing; `input.length + 1` fuel always suffices
because every loop iteration consumes at least one byte. -/
def many_till_elements : Parser (List Element) := fun i =>
  many_till_elements_fuel (i.length + 1) i

/-- `parse_drawing`: a mapping, then elements until the 0 terminator. -/
def parse_drawing : Parser Drawing := do
  let mapping ← parse_mapping
  let elements ← many_till_elements
  pure { mapping := mapping, elements := elements }

/-- The `ShotFlags::HAS_COMMENT` test: `flags.contains(HAS_COMMENT)` is
`flags & 2 == 2`. -/
def hasCommentFlag (flags : Nat) : Bool := flags &&& 2 == 2

/-- `parse_shot`: the fixed 20-byte layout, then a comment string only when
flags bit 1 is set. -/
def parse_shot : Parser Shot := do
  let from_ ← parse_station_id
  let to_ ← parse_station_id
  let distance ← le_i32
  let azimuth ← le_i16
  let inclination ← le_i16
  let flags ← le_u8
  let roll ← le_u8
  let trip_index ← le_i16
  if hasCommentFlag flags then
    let string ← parse_string
    pure { from_ := from_, to_ := to_, distance := distance, azimuth := azimuth,
           inclination := inclination, flags := flags, roll := roll,
           trip_index := trip_index, comment := some string }
  else
    pure { from_ := from_, to_ := to_, distance := distance, azimuth := azimuth,
           inclination := inclination, flags := flags, roll := roll,
           trip_index := trip_index, comment := none }

/-- `parse_shots = length_count(le_u32, parse_shot)`. -/
def parse_shots : Parser (List Shot) := length_count le_u32 parse_shot

/-- `parse_reference`. -/
def parse_reference : Parser Reference := do
  let station ← parse_station_id
  let east ← le_i64
  let north ← le_i64
  let altitude ← le_i32
  let comment ← parse_string
  pure { station := station, east := east, north := north,
         altitude := altitude, comment := comment }

/-- `parse_references = length_count(le_u32, parse_reference)`. -/
def parse_references : Parser (List Reference) := length_count le_u32 parse_reference

/-- `parse_trip`. -/
def parse_trip : Parser Trip := do
  let time ← parse_datetime
  let comment ← parse_string
  let declination ← le_i16
  pure { time := time, comment := comment, declination := declination }

/-- `parse_trips = length_count(le_u32, parse_trip)`. -/
def parse_trips : Parser (List Trip) := length_count le_u32 parse_trip

/-- `parse_internal`: header, version, trips, shots, references, overview
mapping, outline and sideview drawings. -/
def parse_internal : Parser Document := do
  let _ ← parse_header
  let _ ← parse_version
  let trips ← parse_trips
  let shots ← parse_shots
  let references ← parse_references
  let mapping ← parse_mapping
  let outline ← parse_drawing
  let sideview ← parse_drawing
  pure { references := references, shots := shots, trips := trips,
         mapping := mapping, outline := outline, sideview := sideview }

/-- Outcome of the public `parse` entry point: a document, a returned
`ParseError` (nom's `finish` turns both `Err::Error` and `Err::Failure`
into the plain error), or a panic. -/
inductive ParseOutcome
  | success (d : Document)
  | error (e : PError)
  | panicked
deriving DecidableEq

/-- The public `parse` function: run `parse_internal`, `finish()` the nom
result, and drop the remaining input. -/
def parse (i : List Nat) : ParseOutcome :=
  match parse_internal i with
  | .ok _ d => .success d
  | .err e => .error e
  | .fail e => .error e
  | .panicked => .panicked

/- ----------------------------------------------------------------- -/
/- Infrastructure: how a parser behaves on an extended input buffer. -/

/-- Unfolding of the monadic bind of `Parser`. -/
theorem bind_apply (p : Parser α) (f : α → Parser β) (i : List Nat) :
    (p >>= f) i =
      match p i with
      | .ok r v => f v r
      | .err e => .err e
      | .fail e => .fail e
      | .panicked => .panicked := rfl

/-- Unfolding of `pure` for `Parser`. -/
theorem pure_apply (a : α) (i : List Nat) : (pure a : Parser α) i = .ok i a := rfl

theorem bind_ok {p : Parser α} {f : α → Parser β} {i r : List Nat} {v : α}
    (h : p i = .ok r v) : (p >>= f) i = f v r := by
  rw [bind_apply, h]

theorem bind_err {p : Parser α} {f : α → Parser β} {i : List Nat} {e : PError}
    (h : p i = .err e) : (p >>= f) i = .err e := by
  rw [bind_apply, h]

theorem bind_fail {p : Parser α} {f : α → Parser β} {i : List Nat} {e : PError}
    (h : p i = .fail e) : (p >>= f) i = .fail e := by
  rw [bind_apply, h]

theorem bind_panicked {p : Parser α} {f : α → Parser β} {i : List Nat}
    (h : p i = .panicked) : (p >>= f) i = .panicked := by
  rw [bind_apply, h]

/-- A parser is `Good` when, on success, it consumes a prefix of its input:
it never lengthens the remaining input, and appending extra bytes to the
buffer leaves its result unchanged apart from the extra bytes staying in
the remainder. -/
def Good (p : Parser α) : Prop :=
  ∀ i rest v, p i = .ok rest v →
    rest.length ≤ i.length ∧ ∀ extra, p (i ++ extra) = .ok (rest ++ extra) v

theorem good_pure (a : α) : Good (pure a : Parser α) := by
  intro i rest v h
  rw [pure_apply] at h
  cases h
  exact ⟨Nat.le_refl _, fun extra => rfl⟩

theorem good_errP (e : PError) : Good (errP e : Parser α) := by
  intro i rest v h
  cases h

theorem good_failP (e : PError) : Good (failP e : Parser α) := by
  intro i rest v h
  cases h

theorem good_panicP : Good (panicP : Parser α) := by
  intro i rest v h
  cases h

theorem good_bind {p : Parser α} {f : α → Parser β}
    (hp : Good p) (hf : ∀ v, Good (f v)) : Good (p >>= f) := by
  intro i rest v h
  rw [bind_apply] at h
  cases hpi : p i with
  | ok r1 v1 =>
    rw [hpi] at h
    obtain ⟨h1len, h1ext⟩ := hp i r1 v1 hpi
    obtain ⟨h2len, h2ext⟩ := hf v1 r1 rest v h
    refine ⟨Nat.le_trans h2len h1len, fun extra => ?_⟩
    rw [bind_apply, h1ext extra]
    exact h2ext extra
  | err e => rw [hpi] at h; cases h
  | fail e => rw [hpi] at h; cases h
  | panicked => rw [hpi] at h; cases h

theorem good_tag (bs : List Nat) : Good (tag bs) := by
  intro i rest v h
  unfold tag at h
  split at h
  case isTrue hc =>
    cases h
    have hlen : bs.length ≤ i.length := by
      have := congrArg List.length hc
      simp at this
      omega
    refine ⟨by simp [List.length_drop], fun extra => ?_⟩
    unfold tag
    rw [List.take_append_of_le_length hlen, if_pos hc,
      List.drop_append_of_le_length hlen]
  case isFalse => cases h

theorem good_take (n : Nat) : Good (take n) := by
  intro i rest v h
  unfold take at h
  split at h
  case isTrue hc =>
    cases h
    refine ⟨by simp [List.length_drop], fun extra => ?_⟩
    unfold take
    rw [if_pos (by simp; omega), List.take_append_of_le_length hc,
      List.drop_append_of_le_length hc]
  case isFalse => cases h

theorem good_le_u8 : Good le_u8 := by
  intro i rest v h
  cases i with
  | nil => cases h
  | cons b r =>
    cases h
    exact ⟨Nat.le_succ _, fun extra => rfl⟩

theorem good_le_u32 : Good le_u32 := by
  intro i rest v h
  match i with
  | [] | [_] | [_, _] | [_, _, _] => cases h
  | b0 :: b1 :: b2 :: b3 :: r =>
    cases h
    exact ⟨by simp; omega, fun extra => rfl⟩

theorem good_le_i16 : Good le_i16 := by
  intro i rest v h
  match i with
  | [] | [_] => cases h
  | b0 :: b1 :: r =>
    cases h
    exact ⟨by simp; omega, fun extra => rfl⟩

theorem good_le_i32 : Good le_i32 := by
  intro i rest v h
  match i with
  | [] | [_] | [_, _] | [_, _, _] => cases h
  | b0 :: b1 :: b2 :: b3 :: r =>
    cases h
    exact ⟨by simp; omega, fun extra => rfl⟩

theorem good_le_i64 : Good le_i64 := by
  intro i rest v h
  match i with
  | [] | [_] | [_, _] | [_, _, _] | [_, _, _, _] | [_, _, _, _, _]
  | [_, _, _, _, _, _] | [_, _, _, _, _, _, _] => cases h
  | b0 :: b1 :: b2 :: b3 :: b4 :: b5 :: b6 :: b7 :: r =>
    cases h
    exact ⟨by simp; omega, fun extra => rfl⟩

theorem good_varint : Good parse_variable_length_little_endian_int := by
  intro i rest v h
  simp only [parse_variable_length_little_endian_int] at h
  cases hd : i.dropWhile (fun b => b &&& BIT_7_SET == BIT_7_SET) with
  | nil => rw [hd] at h; cases h
  | cons b t =>
    rw [hd] at h
    cases h
    have hsplit := congrArg List.length (List.takeWhile_append_dropWhile
      (fun b => b &&& BIT_7_SET == BIT_7_SET) i)
    rw [hd] at hsplit
    simp at hsplit
    refine ⟨by omega, fun extra => ?_⟩
    simp only [parse_variable_length_little_endian_int]
    have htw : List.takeWhile (fun b => b &&& BIT_7_SET == BIT_7_SET) (i ++ extra) =
        List.takeWhile (fun b => b &&& BIT_7_SET == BIT_7_SET) i := by
      rw [List.takeWhile_append, if_neg]
      intro hcon
      omega
    have hdw : List.dropWhile (fun b => b &&& BIT_7_SET == BIT_7_SET) (i ++ extra) =
        b :: (rest ++ extra) := by
      rw [List.dropWhile_append, hd]
      simp
    rw [htw, hdw]

theorem good_parse_string : Good parse_string := by
  unfold parse_string
  refine good_bind good_varint (fun n => good_bind (good_take n) (fun bytes => ?_))
  split
  · exact good_pure _
  · exact good_errP _

theorem good_parse_point : Good parse_point := by
  unfold parse_point
  exact good_bind good_le_i32 (fun x => good_bind good_le_i32 (fun y => good_pure _))

theorem good_parse_mapping : Good parse_mapping := by
  unfold parse_mapping
  exact good_bind good_parse_point (fun o => good_bind good_le_i32 (fun s => good_pure _))

theorem good_parse_station_id : Good parse_station_id := by
  unfold parse_station_id
  exact good_bind good_le_u32 (fun v => good_pure _)

theorem good_fromTimestampP (s : Int) (n : Nat) : Good (fromTimestampP s n) := by
  unfold fromTimestampP
  split
  · exact good_pure _
  · exact good_panicP

theorem good_parse_datetime : Good parse_datetime := by
  unfold parse_datetime
  exact good_bind good_le_i64 (fun ticks => good_fromTimestampP _ _)

theorem good_countP {f : Parser α} (hf : Good f) : ∀ n, Good (countP f n)
  | 0 => good_pure []
  | n + 1 => by
    unfold countP
    exact good_bind hf (fun x => good_bind (good_countP hf n) (fun xs => good_pure _))

theorem good_length_count {num : Parser Nat} {f : Parser α}
    (hnum : Good num) (hf : Good f) : Good (length_count num f) := by
  unfold length_count
  exact good_bind hnum (fun n => good_countP hf n)

theorem good_parse_polygon : Good parse_polygon := by
  unfold parse_polygon
  refine good_bind (good_tag [1]) (fun _ =>
    good_bind (good_length_count good_le_u32 good_parse_point) (fun pts =>
      good_bind good_le_u8 (fun color => ?_)))
  split
  · exact good_pure _
  · exact good_errP _

theorem good_parse_cross_section : Good parse_cross_section := by
  unfold parse_cross_section
  refine good_bind (good_tag [3]) (fun _ =>
    good_bind good_parse_point (fun pos =>
      good_bind good_parse_station_id (fun st =>
        good_bind good_le_i32 (fun dir => ?_))))
  split
  · exact good_pure _
  · exact good_errP _

/-- If a parser built from `tag bs` as its first step succeeds, the input
starts with `bs`. -/
theorem tag_ok_take {bs i rest v} (h : tag bs i = .ok rest v) :
    List.take bs.length i = bs := by
  unfold tag at h
  split at h
  case isTrue hc => exact hc
  case isFalse => cases h

/-- If the input does not start with `bs`, `tag bs` returns a recoverable
error. -/
theorem tag_err (bs i : List Nat) (h : List.take bs.length i ≠ bs) :
    tag bs i = .err .unknownError := by
  unfold tag
  rw [if_neg h]

/-- `parse_polygon` immediately errors recoverably on any input that does
not start with byte 1. -/
theorem parse_polygon_err {i} (h : List.take 1 i ≠ [1]) :
    parse_polygon i = .err .unknownError := by
  unfold parse_polygon
  rw [bind_apply, tag_err [1] i (by simpa using h)]

/-- `alt parse_polygon parse_cross_section` is Good: the two branches are
told apart by the first input byte, so appending bytes cannot flip which
branch succeeds. -/
theorem good_parse_element : Good parse_element := by
  intro i rest v h
  unfold parse_element alt at h
  cases hpo : parse_polygon i with
  | ok r1 v1 =>
    rw [hpo] at h
    cases h
    obtain ⟨hlen, hext⟩ := good_parse_polygon i rest v hpo
    refine ⟨hlen, fun extra => ?_⟩
    unfold parse_element alt
    rw [hext extra]
  | err e1 =>
    rw [hpo] at h
    cases hcs : parse_cross_section i with
    | ok r1 v1 =>
      rw [hcs] at h
      cases h
      obtain ⟨hlen, hext⟩ := good_parse_cross_section i rest v hcs
      refine ⟨hlen, fun extra => ?_⟩
      -- the cross-section branch succeeded, so the input starts with byte 3
      have h3 : List.take 1 i = [3] := by
        unfold parse_cross_section at hcs
        rw [bind_apply] at hcs
        cases htag : tag [3] i with
        | ok r2 v2 => simpa using tag_ok_take htag
        | err e => rw [htag] at hcs; cases hcs
        | fail e => rw [htag] at hcs; cases hcs
        | panicked => rw [htag] at hcs; cases hcs
      have h1 : List.take 1 (i ++ extra) ≠ [1] := by
        have : List.take 1 (i ++ extra) = [3] := by
          have hlen1 : 1 ≤ i.length := by
            cases i with
            | nil => cases h3
            | cons a t => simp
          rw [List.take_append_of_le_length hlen1, h3]
        rw [this]
        simp
      unfold parse_element alt
      rw [parse_polygon_err h1, hext extra]
    | err e2 => rw [hcs] at h; cases h
    | fail e => rw [hcs] at h; cases h
    | panicked => rw [hcs] at h; cases h
  | fail e => rw [hpo] at h; cases h
  | panicked => rw [hpo] at h; cases h

/-- A successful element parse means the input starts with tag byte 1
(polygon) or 3 (cross-section). -/
theorem parse_element_ok_head {i rest v} (h : parse_element i = .ok rest v) :
    List.take 1 i = [1] ∨ List.take 1 i = [3] := by
  unfold parse_element alt at h
  cases hpo : parse_polygon i with
  | ok r1 v1 =>
    left
    unfold parse_polygon at hpo
    rw [bind_apply] at hpo
    cases htag : tag [1] i with
    | ok r2 v2 => simpa using tag_ok_take htag
    | err e => rw [htag] at hpo; cases hpo
    | fail e => rw [htag] at hpo; cases hpo
    | panicked => rw [htag] at hpo; cases hpo
  | err e1 =>
    rw [hpo] at h
    cases hcs : parse_cross_section i with
    | ok r1 v1 =>
      right
      unfold parse_cross_section at hcs
      rw [bind_apply] at hcs
      cases htag : tag [3] i with
      | ok r2 v2 => simpa using tag_ok_take htag
      | err e => rw [htag] at hcs; cases hcs
      | fail e => rw [htag] at hcs; cases hcs
      | panicked => rw [htag] at hcs; cases hcs
    | err e2 => rw [hcs] at h; cases h
    | fail e => rw [hcs] at h; cases h
    | panicked => rw [hcs] at h; cases h
  | fail e => rw [hpo] at h; cases h
  | panicked => rw [hpo] at h; cases h

/-- The `many_till` loop with enough fuel consumes a prefix of its input and
is unaffected by extra bytes appended after it (with any sufficient
fuel). -/
theorem many_till_fuel_good :
    ∀ fuel i rest v, i.length < fuel →
      many_till_elements_fuel fuel i = .ok rest v →
      rest.length ≤ i.length ∧
      ∀ extra fuel', (i ++ extra).length < fuel' →
        many_till_elements_fuel fuel' (i ++ extra) = .ok (rest ++ extra) v := by
  intro fuel
  induction fuel with
  | zero => intro i rest v hlt; exact absurd hlt (Nat.not_lt_zero _)
  | succ fuel ih =>
    intro i rest v hlt h
    simp only [many_till_elements_fuel] at h
    cases htag : tag [0] i with
    | ok i1 u =>
      rw [htag] at h
      cases h
      obtain ⟨hl, he⟩ := good_tag [0] i rest u htag
      refine ⟨hl, fun extra fuel' hflt => ?_⟩
      cases fuel' with
      | zero => exact absurd hflt (Nat.not_lt_zero _)
      | succ f' =>
        simp only [many_till_elements_fuel, he extra]
    | err e =>
      rw [htag] at h
      cases hel : parse_element i with
      | ok i1 o =>
        rw [hel] at h
        replace h :
            (if i1.length = i.length then (.err .unknownError : PResult (List Element))
             else
               match many_till_elements_fuel fuel i1 with
               | .ok i2 os => .ok i2 (o :: os)
               | .err e => .err e
               | .fail e => .fail e
               | .panicked => .panicked) = .ok rest v := h
        by_cases heq : i1.length = i.length
        · rw [if_pos heq] at h; cases h
        · rw [if_neg heq] at h
          obtain ⟨hl1, he1⟩ := good_parse_element i i1 o hel
          have hlt1 : i1.length < i.length := Nat.lt_of_le_of_ne hl1 heq
          cases hrec : many_till_elements_fuel fuel i1 with
          | ok i2 os =>
            rw [hrec] at h
            cases h
            have hfu : i1.length < fuel := by omega
            obtain ⟨hl2, he2⟩ := ih i1 _ _ hfu hrec
            refine ⟨by omega, fun extra fuel' hflt => ?_⟩
            cases fuel' with
            | zero => exact absurd hflt (Nat.not_lt_zero _)
            | succ f' =>
              have hhead := parse_element_ok_head hel
              have h1le : 1 ≤ i.length := by
                cases i with
                | nil => rcases hhead with h | h <;> simp at h
                | cons a t => simp
              have htag2 : tag [0] (i ++ extra) = .err .unknownError := by
                apply tag_err [0] (i ++ extra)
                have hta : List.take 1 (i ++ extra) = List.take 1 i :=
                  List.take_append_of_le_length h1le
                simp only [List.length_cons, List.length_nil, hta]
                rcases hhead with h | h <;> rw [h] <;> simp
              have hne2 : ¬ (i1 ++ extra).length = (i ++ extra).length := by
                simp only [List.length_append]
                omega
              have hflt2 : (i1 ++ extra).length < f' := by
                simp only [List.length_append] at hflt ⊢
                omega
              simp only [many_till_elements_fuel, htag2, he1 extra, if_neg hne2,
                he2 extra f' hflt2]
          | err e2 => rw [hrec] at h; cases h
          | fail e2 => rw [hrec] at h; cases h
          | panicked => rw [hrec] at h; cases h
      | err e2 => rw [hel] at h; cases h
      | fail e2 => rw [hel] at h; cases h
      | panicked => rw [hel] at h; cases h
    | fail e => rw [htag] at h; cases h
    | panicked => rw [htag] at h; cases h

theorem good_many_till_elements : Good many_till_elements := by
  intro i rest v h
  unfold many_till_elements at h
  obtain ⟨hlen, hext⟩ :=
    many_till_fuel_good (i.length + 1) i rest v (Nat.lt_succ_self _) h
  refine ⟨hlen, fun extra => ?_⟩
  unfold many_till_elements
  exact hext extra ((i ++ extra).length + 1) (Nat.lt_succ_self _)

theorem good_parse_drawing : Good parse_drawing := by
  unfold parse_drawing
  exact good_bind good_parse_mapping (fun m =>
    good_bind good_many_till_elements (fun es => good_pure _))

theorem good_parse_shot : Good parse_shot := by
  unfold parse_shot
  refine good_bind good_parse_station_id (fun f_ =>
    good_bind good_parse_station_id (fun t_ =>
      good_bind good_le_i32 (fun d =>
        good_bind good_le_i16 (fun az =>
          good_bind good_le_i16 (fun inc =>
            good_bind good_le_u8 (fun fl =>
              good_bind good_le_u8 (fun ro =>
                good_bind good_le_i16 (fun ti => ?_))))))))
  split
  · exact good_bind good_parse_string (fun s => good_pure _)
  · exact good_pure _

theorem good_parse_reference : Good parse_reference := by
  unfold parse_reference
  exact good_bind good_parse_station_id (fun st =>
    good_bind good_le_i64 (fun e =>
      good_bind good_le_i64 (fun n =>
        good_bind good_le_i32 (fun a =>
          good_bind good_parse_string (fun c => good_pure _)))))

theorem good_parse_trip : Good parse_trip := by
  unfold parse_trip
  exact good_bind good_parse_datetime (fun t =>
    good_bind good_parse_string (fun c =>
      good_bind good_le_i16 (fun d => good_pure _)))

theorem good_parse_header : Good parse_header := by
  intro i rest v h
  unfold parse_header at h
  cases htag : tag HEADER i with
  | ok r1 v1 =>
    rw [htag] at h
    cases h
    obtain ⟨hlen, hext⟩ := good_tag HEADER i rest v htag
    refine ⟨hlen, fun extra => ?_⟩
    unfold parse_header
    rw [hext extra]
  | err e => rw [htag] at h; cases h
  | fail e => rw [htag] at h; cases h
  | panicked => rw [htag] at h; cases h

theorem good_parse_version : Good parse_version := by
  unfold parse_version
  refine good_bind good_le_u8 (fun ver => ?_)
  split
  · exact good_failP _
  · exact good_pure _

theorem good_parse_internal : Good parse_internal := by
  unfold parse_internal parse_trips parse_shots parse_references
  exact good_bind good_parse_header (fun h1 =>
    good_bind good_parse_version (fun v1 =>
      good_bind (good_length_count good_le_u32 good_parse_trip) (fun trips =>
        good_bind (good_length_count good_le_u32 good_parse_shot) (fun shots =>
          good_bind (good_length_count good_le_u32 good_parse_reference) (fun refs =>
            good_bind good_parse_mapping (fun m =>
              good_bind good_parse_drawing (fun o =>
                good_bind good_parse_drawing (fun s => good_pure _))))))))

/- ----------------------------------------------------------------- -/
/- Helper lemmas for the claim theorems. -/

/-- The station-id decoding rule exactly as the specification words it:
`0x80000000` is "no station", any other value with the top bit set
(value AND 0x80000000 ≠ 0) is `Plain((value XOR 0x80000000) - 1)`, and a
clear top bit splits into `MajorMinor(high 16 bits, low 16 bits)`. -/
def stationIdSpec (v : Nat) : Option StationId :=
  if v = 2147483648 then none
  else if v &&& 2147483648 ≠ 0 then some (.Plain ((v ^^^ 2147483648) - 1))
  else some (.MajorMinor (v / 65536) (v % 65536))

/-- For 32-bit values the code's decode agrees with the specification's
wording of the three branches. -/
theorem decode_station_id_eq_spec (v : Nat) (hv : v < 4294967296) :
    decode_station_id v = stationIdSpec v := by
  unfold decode_station_id stationIdSpec UNDEFINED
  have h31 : v &&& 2147483648 = (v.testBit 31).toNat * 2147483648 := by
    have h := Nat.and_two_pow v 31
    norm_num at h
    exact h
  by_cases hu : v = 2147483648
  · rw [if_pos hu, if_pos hu]
  · rw [if_neg hu, if_neg hu]
    by_cases ht : v.testBit 31
    · have hc : v &&& 2147483648 = 2147483648 := by simp [h31, ht]
      have hs : v &&& 2147483648 ≠ 0 := by simp [hc]
      rw [if_pos hc, if_pos hs]
    · have hc : v &&& 2147483648 = 0 := by simp [h31, ht]
      have hcn : ¬ v &&& 2147483648 = 2147483648 := by simp [hc]
      have hs : ¬ v &&& 2147483648 ≠ 0 := by simp [hc]
      rw [if_neg hcn, if_neg hs]
      have hshift : v >>> 16 = v / 65536 := by
        rw [Nat.shiftRight_eq_div_pow]
      have hm1 : (v >>> 16) &&& 65535 = (v / 65536) % 65536 := by
        rw [hshift, show (65535 : Nat) = 2 ^ 16 - 1 from rfl,
          Nat.and_pow_two_sub_one_eq_mod]
      have hm2 : v &&& 65535 = v % 65536 := by
        rw [show (65535 : Nat) = 2 ^ 16 - 1 from rfl,
          Nat.and_pow_two_sub_one_eq_mod]
      have hdiv : (v / 65536) % 65536 = v / 65536 := by omega
      rw [hm1, hm2, hdiv]

/-- The varint decoder stops at the first byte whose bit 7 is clear and
accumulates exactly the bytes up to and including it. -/
theorem varint_stops_at_clear (bs : List Nat) (b : Nat) (rest : List Nat)
    (hbs : ∀ x ∈ bs, x &&& 128 = 128) (hb : b &&& 128 ≠ 128) :
    parse_variable_length_little_endian_int (bs ++ b :: rest) =
      .ok rest (varintAccum 0 (bs ++ [b])) := by
  simp only [parse_variable_length_little_endian_int]
  have hpred : ∀ x ∈ bs, (x &&& BIT_7_SET == BIT_7_SET) = true := by
    intro x hx
    simp [BIT_7_SET, hbs x hx]
  have hnb : ¬ ((b &&& BIT_7_SET == BIT_7_SET) = true) := by
    simp [BIT_7_SET]
    exact hb
  rw [List.takeWhile_append_of_pos hpred, List.dropWhile_append_of_pos hpred,
    List.takeWhile_cons_of_neg (p := fun a => a &&& BIT_7_SET == BIT_7_SET) hnb,
    List.dropWhile_cons_of_neg (p := fun a => a &&& BIT_7_SET == BIT_7_SET) hnb]
  simp

/-- A single byte with bit 7 clear decodes to its low 7 bits. -/
theorem varint_clear_head (b : Nat) (rest : List Nat) (hb : b &&& 128 = 0) :
    parse_variable_length_little_endian_int (b :: rest) = .ok rest (b &&& 127) := by
  have h := varint_stops_at_clear [] b rest (by intro x hx; cases hx) (by omega)
  simp only [List.nil_append] at h
  rw [h]
  have hacc : varintAccum 0 [b] = b &&& 127 := by
    have hlt : b &&& 127 < 2 ^ 64 := Nat.lt_of_le_of_lt Nat.and_le_right (by norm_num)
    show (((b &&& 127) <<< ((7 * 0) % 64)) % 2 ^ 64) ||| varintAccum 1 [] = b &&& 127
    rw [show (7 * 0) % 64 = 0 from rfl, Nat.shiftLeft_zero, Nat.mod_eq_of_lt hlt,
      show varintAccum 1 [] = 0 from rfl, Nat.or_zero]
  rw [hacc]

/-- C1: the station-identifier decoder, on any 4-byte little-endian value,
returns "no station" for `0x80000000`, `Plain((value XOR 0x80000000) - 1)`
when the top bit is set and the value is not `0x80000000`, and
`MajorMinor(high 16 bits, low 16 bits)` when the top bit is clear; in
particular it maps the nine byte quadruples of the specification's
round-trip table to their required results. -/
theorem station_id_decoder_spec :
    (∀ b0 b1 b2 b3 rest, b0 < 256 → b1 < 256 → b2 < 256 → b3 < 256 →
      parse_station_id (b0 :: b1 :: b2 :: b3 :: rest) =
        .ok rest (stationIdSpec (b0 + 256 * b1 + 65536 * b2 + 16777216 * b3))) ∧
    parse_station_id [0, 0, 0, 128] = .ok [] none ∧
    parse_station_id [0, 0, 1, 0] = .ok [] (some (.MajorMinor 1 0)) ∧
    parse_station_id [1, 0, 42, 0] = .ok [] (some (.MajorMinor 42 1)) ∧
    parse_station_id [0, 0, 255, 127] = .ok [] (some (.MajorMinor 32767 0)) ∧
    parse_station_id [255, 255, 255, 127] = .ok [] (some (.MajorMinor 32767 65535)) ∧
    parse_station_id [1, 0, 0, 128] = .ok [] (some (.Plain 0)) ∧
    parse_station_id [2, 0, 0, 128] = .ok [] (some (.Plain 1)) ∧
    parse_station_id [66, 66, 15, 128] = .ok [] (some (.Plain 1000001)) ∧
    parse_station_id [255, 255, 255, 255] = .ok [] (some (.Plain 2147483646)) := by
  refine ⟨?_, by decide, by decide, by decide, by decide, by decide, by decide,
    by decide, by decide, by decide⟩
  intro b0 b1 b2 b3 rest h0 h1 h2 h3
  have hstep : parse_station_id (b0 :: b1 :: b2 :: b3 :: rest) =
      .ok rest (decode_station_id (b0 + 256 * b1 + 65536 * b2 + 16777216 * b3)) := rfl
  rw [hstep, decode_station_id_eq_spec _ (by omega)]

/-- Witness for C1 at the concrete bytes `00 FF 0F 80`. -/
theorem station_id_decoder_spec_witness :
    parse_station_id [0, 255, 15, 128] =
      .ok [] (stationIdSpec (0 + 256 * 255 + 65536 * 15 + 16777216 * 128)) :=
  station_id_decoder_spec.1 0 255 15 128 [] (by decide) (by decide) (by decide)
    (by decide)

/-- C10: the station-identifier decoder is total on inputs of at least 4
bytes (no error case of its own), and the subtraction in the `Plain`
branch cannot underflow: whenever the top bit is set and the value is not
exactly `0x80000000`, the XOR with `0x80000000` is at least 1. -/
theorem station_id_decoder_total :
    (∀ i, 4 ≤ i.length → ∃ s, parse_station_id i = .ok (List.drop 4 i) s) ∧
    (∀ v, v &&& UNDEFINED = UNDEFINED → v ≠ UNDEFINED → 1 ≤ v ^^^ UNDEFINED) := by
  constructor
  · intro i hlen
    cases i with
    | nil => simp at hlen
    | cons b0 t0 =>
      cases t0 with
      | nil => simp at hlen
      | cons b1 t1 =>
        cases t1 with
        | nil => simp at hlen
        | cons b2 t2 =>
          cases t2 with
          | nil => simp at hlen
          | cons b3 t3 =>
            exact ⟨decode_station_id (b0 + 256 * b1 + 65536 * b2 + 16777216 * b3),
              rfl⟩
  · intro v hset hne
    have hx : v ^^^ UNDEFINED ≠ 0 := fun h0 => hne (Nat.xor_eq_zero.mp h0)
    omega

/-- Witness for C10: a 4-byte input succeeds, and the value `0x80000001`
(top bit set, not the sentinel) XORs to at least 1. -/
theorem station_id_decoder_total_witness :
    (∃ s, parse_station_id [9, 9, 9, 9] = .ok (List.drop 4 [9, 9, 9, 9]) s) ∧
    1 ≤ 2147483649 ^^^ UNDEFINED :=
  ⟨station_id_decoder_total.1 [9, 9, 9, 9] (by decide),
    station_id_decoder_total.2 2147483649 (by decide) (by decide)⟩

/-- C6: the varint decoder accumulates the low 7 bits of each byte,
least-significant group first, stopping at (and consuming) the first byte
whose bit 7 is clear; it maps `[0x00]` to 0, `[0x2B]` to 43,
`[0xFF, 0x01]` to 255 and `[0x80, 0x00]` to 0 while consuming both bytes,
and a single byte with bit 7 clear decodes to its low 7 bits directly. -/
theorem varint_decoder_spec :
    (∀ bs b rest, (∀ x ∈ bs, x &&& 128 = 128) → b &&& 128 ≠ 128 →
      parse_variable_length_little_endian_int (bs ++ b :: rest) =
        .ok rest (varintAccum 0 (bs ++ [b]))) ∧
    (∀ b rest, b &&& 128 = 0 →
      parse_variable_length_little_endian_int (b :: rest) = .ok rest (b &&& 127)) ∧
    (∀ rest, parse_variable_length_little_endian_int (0 :: rest) = .ok rest 0) ∧
    (∀ rest, parse_variable_length_little_endian_int (43 :: rest) = .ok rest 43) ∧
    (∀ rest, parse_variable_length_little_endian_int (255 :: 1 :: rest) =
      .ok rest 255) ∧
    (∀ rest, parse_variable_length_little_endian_int (128 :: 0 :: rest) =
      .ok rest 0) := by
  refine ⟨varint_stops_at_clear, varint_clear_head, ?_, ?_, ?_, ?_⟩
  · intro rest
    have h := varint_clear_head 0 rest (by decide)
    simpa using h
  · intro rest
    have h := varint_clear_head 43 rest (by decide)
    simpa using h
  · intro rest
    have h := varint_stops_at_clear [255] 1 rest (by decide) (by decide)
    simp only [List.cons_append, List.nil_append] at h
    rw [h, show varintAccum 0 [255, 1] = 255 from by decide]
  · intro rest
    have h := varint_stops_at_clear [128] 0 rest (by decide) (by decide)
    simp only [List.cons_append, List.nil_append] at h
    rw [h, show varintAccum 0 [128, 0] = 0 from by decide]

/-- Witness for C6 at concrete inputs. -/
theorem varint_decoder_spec_witness :
    parse_variable_length_little_endian_int ([128] ++ 5 :: [7]) =
      .ok [7] (varintAccum 0 ([128] ++ [5])) ∧
    parse_variable_length_little_endian_int (9 :: [33]) = .ok [33] (9 &&& 127) ∧
    parse_variable_length_little_endian_int (0 :: [4]) = .ok [4] 0 ∧
    parse_variable_length_little_endian_int (43 :: [4]) = .ok [4] 43 ∧
    parse_variable_length_little_endian_int (255 :: 1 :: [4]) = .ok [4] 255 ∧
    parse_variable_length_little_endian_int (128 :: 0 :: [4]) = .ok [4] 0 :=
  ⟨varint_decoder_spec.1 [128] 5 [7] (by decide) (by decide),
    varint_decoder_spec.2.1 9 [33] (by decide),
    varint_decoder_spec.2.2.1 [4],
    varint_decoder_spec.2.2.2.1 [4],
    varint_decoder_spec.2.2.2.2.1 [4],
    varint_decoder_spec.2.2.2.2.2 [4]⟩

/-- C7: a buffer whose first three bytes differ from the magic `"Top"`
fails with `InvalidHeader` carrying exactly those (up to three) leading
bytes, and a buffer with the correct magic and a fourth byte other than 3
fails with `UnsupportedVersion` of that byte. -/
theorem header_version_errors :
    (∀ i, List.take 3 i ≠ HEADER →
      parse i = .error (.invalidHeader (List.take 3 i))) ∧
    (∀ v rest, v ≠ 3 →
      parse (84 :: 111 :: 112 :: v :: rest) = .error (.unsupportedVersion v)) := by
  constructor
  · intro i hne
    have hh : parse_header i = .fail (.invalidHeader (List.take 3 i)) := by
      unfold parse_header
      rw [tag_err HEADER i (by simpa using hne)]
    have hpi : parse_internal i = .fail (.invalidHeader (List.take 3 i)) := by
      unfold parse_internal
      exact bind_fail hh
    unfold parse
    rw [hpi]
  · intro v rest hv
    have hh : parse_header (84 :: 111 :: 112 :: v :: rest) =
        .ok (v :: rest) HEADER := rfl
    have hver : parse_version (v :: rest) = .fail (.unsupportedVersion v) := by
      unfold parse_version
      rw [bind_ok (show le_u8 (v :: rest) = .ok rest v from rfl)]
      show (if v ≠ VERSION then failP (.unsupportedVersion v) else pure v) rest =
        .fail (.unsupportedVersion v)
      simp only [VERSION]
      rw [if_pos hv]
      rfl
    have hpi : parse_internal (84 :: 111 :: 112 :: v :: rest) =
        .fail (.unsupportedVersion v) := by
      unfold parse_internal
      rw [bind_ok hh]
      exact bind_fail hver
    unfold parse
    rw [hpi]

/-- Witness for C7: a wrong magic and a wrong version byte. -/
theorem header_version_errors_witness :
    parse [84, 79, 80, 3] = .error (.invalidHeader [84, 79, 80]) ∧
    parse [84, 111, 112, 2] = .error (.unsupportedVersion 2) := by
  constructor
  · have h := header_version_errors.1 [84, 79, 80, 3] (by decide)
    simpa using h
  · exact header_version_errors.2 2 [] (by decide)

/-- Counterexample for C5: two failures — the buffer `"Top\x03"` that ends
right before the trip-count `u32` (a truncation), and a structurally
complete document whose outline contains the byte 5 where an element tag
or terminator is required (a plain grammar mismatch) — produce the very
same `UnknownError`: `ParseError` has no dedicated truncation variant, so
truncation is not distinct from the generic fallback. -/
theorem truncation_error_not_dedicated :
    parse [84, 111, 112, 3] = .error .unknownError ∧
    parse ([84, 111, 112, 3] ++ [0, 0, 0, 0] ++ [0, 0, 0, 0] ++ [0, 0, 0, 0] ++
      [0, 0, 0, 0, 0, 0, 0, 0, 0, 0, 0, 0] ++
      [0, 0, 0, 0, 0, 0, 0, 0, 0, 0, 0, 0] ++ [5]) = .error .unknownError := by
  exact ⟨by decide, by decide⟩

/-- C5 (amended): every fixed-size or length-prefixed read that runs past
the end of the buffer fails — a truncated `u32`, a `take` past the end, a
varint whose continuation run reaches the end of input, and a string
shorter than its declared length — but always with the generic
`UnknownError` that `from_error_kind` also produces for unclassifiable
grammar mismatches; there is no dedicated truncation error. -/
theorem truncation_errors_are_generic :
    (∀ i, i.length < 4 → le_u32 i = .err .unknownError) ∧
    (∀ n i, i.length < n → take n i = .err .unknownError) ∧
    (∀ i, (∀ b ∈ i, b &&& 128 = 128) →
      parse_variable_length_little_endian_int i = .err .unknownError) ∧
    (∀ len i, len < 128 → i.length < len → parse_string (len :: i) =
      .err .unknownError) := by
  refine ⟨?_, ?_, ?_, ?_⟩
  · intro i h
    cases i with
    | nil => rfl
    | cons a t =>
      cases t with
      | nil => rfl
      | cons b t2 =>
        cases t2 with
        | nil => rfl
        | cons c t3 =>
          cases t3 with
          | nil => rfl
          | cons d t4 => simp at h; omega
  · intro n i h
    unfold take
    rw [if_neg (by omega)]
  · intro i hall
    simp only [parse_variable_length_little_endian_int]
    have hd : List.dropWhile (fun b => b &&& BIT_7_SET == BIT_7_SET) i = [] := by
      rw [List.dropWhile_eq_nil_iff]
      intro x hx
      simp [BIT_7_SET, hall x hx]
    rw [hd]
  · intro len i hlt hlen
    have hbit : len &&& 128 = 0 := by
      have h7 : len &&& 128 = (len.testBit 7).toNat * 128 := by
        have h := Nat.and_two_pow len 7
        norm_num at h
        exact h
      rw [h7, Nat.testBit_lt_two_pow (show len < 2 ^ 7 by omega)]
      norm_num
    have hvar := varint_clear_head len i hbit
    have h127 : len &&& 127 = len := by
      rw [show (127 : Nat) = 2 ^ 7 - 1 from rfl, Nat.and_pow_two_sub_one_eq_mod]
      omega
    unfold parse_string
    rw [bind_ok hvar, h127]
    have htake : take len i = .err .unknownError := by
      unfold take
      rw [if_neg (by omega)]
    exact bind_err htake

/-- Witness for C5's amended claim at concrete truncated inputs. -/
theorem truncation_errors_are_generic_witness :
    le_u32 [7] = .err .unknownError ∧
    take 3 [1, 2] = .err .unknownError ∧
    parse_variable_length_little_endian_int [128, 129] = .err .unknownError ∧
    parse_string [5, 97] = .err .unknownError :=
  ⟨truncation_errors_are_generic.1 [7] (by decide),
    truncation_errors_are_generic.2.1 3 [1, 2] (by decide),
    truncation_errors_are_generic.2.2.1 [128, 129] (by decide),
    truncation_errors_are_generic.2.2.2 5 [97] (by decide) (by decide)⟩

/-- `ShotFlags::contains(HAS_COMMENT)` is exactly the test of bit 1 of the
flags byte. -/
theorem hasCommentFlag_testBit (fl : Nat) : hasCommentFlag fl = fl.testBit 1 := by
  have h2 : fl &&& 2 = (fl.testBit 1).toNat * 2 := by
    have h := Nat.and_two_pow fl 1
    norm_num at h
    exact h
  cases ht : fl.testBit 1 <;> simp [hasCommentFlag, h2, ht]

/-- The shot record built from the 20 fixed-layout bytes and an optional
comment. -/
def shotOfFixed
    (a0 a1 a2 a3 a4 a5 a6 a7 a8 a9 a10 a11 a12 a13 a14 a15 fl ro t0 t1 : Nat)
    (c : Option (List Nat)) : Shot :=
  { from_ := decode_station_id (a0 + 256 * a1 + 65536 * a2 + 16777216 * a3)
    to_ := decode_station_id (a4 + 256 * a5 + 65536 * a6 + 16777216 * a7)
    distance := toSigned 32 (a8 + 256 * a9 + 65536 * a10 + 16777216 * a11)
    azimuth := toSigned 16 (a12 + 256 * a13)
    inclination := toSigned 16 (a14 + 256 * a15)
    flags := fl
    roll := ro
    trip_index := toSigned 16 (t0 + 256 * t1)
    comment := c }

/-- C2: after the 20 fixed shot bytes (the flags byte sitting at offset 16,
then roll and the two trip-index bytes), a comment string is consumed if
and only if bit 1 of the flags byte is set: with the bit clear the shot is
complete with no comment and nothing further is consumed; with the bit set
exactly one varint-length-prefixed UTF-8 string is parsed from the bytes
immediately after the trip index and becomes the shot's comment. -/
theorem shot_comment_gating :
    ∀ a0 a1 a2 a3 a4 a5 a6 a7 a8 a9 a10 a11 a12 a13 a14 a15 fl ro t0 t1 rest,
      (fl.testBit 1 = false →
        parse_shot (a0 :: a1 :: a2 :: a3 :: a4 :: a5 :: a6 :: a7 :: a8 :: a9 ::
            a10 :: a11 :: a12 :: a13 :: a14 :: a15 :: fl :: ro :: t0 :: t1 :: rest) =
          .ok rest (shotOfFixed a0 a1 a2 a3 a4 a5 a6 a7 a8 a9 a10 a11 a12 a13 a14 a15
            fl ro t0 t1 none)) ∧
      (fl.testBit 1 = true →
        parse_shot (a0 :: a1 :: a2 :: a3 :: a4 :: a5 :: a6 :: a7 :: a8 :: a9 ::
            a10 :: a11 :: a12 :: a13 :: a14 :: a15 :: fl :: ro :: t0 :: t1 :: rest) =
          match parse_string rest with
          | .ok r str => .ok r (shotOfFixed a0 a1 a2 a3 a4 a5 a6 a7 a8 a9 a10 a11
              a12 a13 a14 a15 fl ro t0 t1 (some str))
          | .err e => .err e
          | .fail e => .fail e
          | .panicked => .panicked) := by
  intro a0 a1 a2 a3 a4 a5 a6 a7 a8 a9 a10 a11 a12 a13 a14 a15 fl ro t0 t1 rest
  have hred : parse_shot (a0 :: a1 :: a2 :: a3 :: a4 :: a5 :: a6 :: a7 :: a8 :: a9 ::
      a10 :: a11 :: a12 :: a13 :: a14 :: a15 :: fl :: ro :: t0 :: t1 :: rest) =
      (if hasCommentFlag fl then
        (parse_string >>= fun str => pure (shotOfFixed a0 a1 a2 a3 a4 a5 a6 a7 a8 a9
          a10 a11 a12 a13 a14 a15 fl ro t0 t1 (some str)))
      else pure (shotOfFixed a0 a1 a2 a3 a4 a5 a6 a7 a8 a9 a10 a11 a12 a13 a14 a15
        fl ro t0 t1 none)) rest := rfl
  constructor
  · intro hbit
    have hflag : hasCommentFlag fl = false := by rw [hasCommentFlag_testBit, hbit]
    rw [hred, hflag]
    rfl
  · intro hbit
    have hflag : hasCommentFlag fl = true := by rw [hasCommentFlag_testBit, hbit]
    rw [hred, hflag]
    cases hps : parse_string rest with
    | ok r str =>
      rw [if_pos (Eq.refl true), bind_ok hps]
      rfl
    | err e => rw [if_pos (Eq.refl true), bind_err hps]
    | fail e => rw [if_pos (Eq.refl true), bind_fail hps]
    | panicked => rw [if_pos (Eq.refl true), bind_panicked hps]

/-- Witness for C2: a shot without comment (flags 0) and one with flags 2
followed by the 2-byte string "ab". -/
theorem shot_comment_gating_witness :
    parse_shot [1, 0, 0, 128, 0, 0, 0, 128, 0, 0, 0, 0, 0, 0, 0, 0, 0, 0, 255, 255] =
      .ok [] (shotOfFixed 1 0 0 128 0 0 0 128 0 0 0 0 0 0 0 0 0 0 255 255 none) ∧
    parse_shot [1, 0, 0, 128, 0, 0, 0, 128, 0, 0, 0, 0, 0, 0, 0, 0, 2, 0, 255, 255,
        2, 97, 98] =
      .ok [] (shotOfFixed 1 0 0 128 0 0 0 128 0 0 0 0 0 0 0 0 2 0 255 255
        (some [97, 98])) := by
  constructor
  · exact (shot_comment_gating 1 0 0 128 0 0 0 128 0 0 0 0 0 0 0 0 0 0 255 255 []).1
      (by decide)
  · exact ((shot_comment_gating 1 0 0 128 0 0 0 128 0 0 0 0 0 0 0 0 2 0 255 255
      [2, 97, 98]).2 (by decide)).trans (by decide)

/-- C3 fails on the code: `parse_datetime` stores the remainder
`ticks % 10^7` — a count of 100 ns tick units — directly in the nanosecond
field without scaling it by 100.  Ticks = 5 000 000 (half a second past a
whole second of the tick epoch) decodes to nanosecond field 5 000 000
(0.005 s) instead of the 500 000 000 ns the remainder represents, so
sub-second precision is lost. -/
theorem datetime_remainder_not_scaled :
    parse_datetime [64, 75, 76, 0, 0, 0, 0, 0] =
      .ok [] { secs := -62135596800, nsecs := 5000000 } ∧
    (5000000 : Nat) ≠ 100 * 5000000 := ⟨by decide, by decide⟩

/-- C4 fails on the code: an out-of-range polygon color byte (here 8) does
make `parse_polygon` produce `InvalidColor(8)`, but only as a recoverable
`Err::Error`; `alt` then tries `parse_cross_section`, whose tag mismatch
yields `UnknownError`, and nom's error combination keeps the second error,
so the caller of `parse` receives `UnknownError`, not `InvalidColor(8)`. -/
theorem invalid_color_replaced_by_unknown :
    parse_polygon [1, 0, 0, 0, 0, 8] = .err (.invalidColor 8) ∧
    parse ([84, 111, 112, 3] ++ [0, 0, 0, 0] ++ [0, 0, 0, 0] ++ [0, 0, 0, 0] ++
      [0, 0, 0, 0, 0, 0, 0, 0, 0, 0, 0, 0] ++
      [0, 0, 0, 0, 0, 0, 0, 0, 0, 0, 0, 0] ++
      [1, 0, 0, 0, 0, 8]) = .error .unknownError ∧
    PError.unknownError ≠ PError.invalidColor 8 := ⟨by decide, by decide, by decide⟩

/-- C8 fails on the code: parsing does not always return a value.  A
document whose first trip has tick count -1 (eight `0xFF` bytes) makes
`parse_datetime` pass nanosecond argument 4294967295 to chrono's
`from_timestamp` (the `as u32` cast of the negative remainder -1), on
which chrono panics, aborting the parse with an uncaught panic instead of
a returned error. -/
theorem parse_panics_on_negative_ticks :
    parse ([84, 111, 112, 3] ++ [1, 0, 0, 0] ++
      [255, 255, 255, 255, 255, 255, 255, 255]) = .panicked := by decide

/-- C9: the top-level `parse` does not require the buffer to be fully
consumed: appending arbitrary extra bytes to a successfully parsed buffer
still parses successfully and yields the structurally equal document. -/
theorem parse_ignores_trailing_bytes (i extra : List Nat) (d : Document)
    (h : parse i = .success d) : parse (i ++ extra) = .success d := by
  unfold parse at h ⊢
  cases hpi : parse_internal i with
  | ok r v =>
    rw [hpi] at h
    cases h
    obtain ⟨_, hext⟩ := good_parse_internal i r d hpi
    rw [hext extra]
  | err e => rw [hpi] at h; cases h
  | fail e => rw [hpi] at h; cases h
  | panicked => rw [hpi] at h; cases h

/-- The 54-byte empty document: no trips, shots or references, an all-zero
overview mapping and two drawings with all-zero mappings and empty element
lists. -/
def emptyDocBytes : List Nat :=
  [84, 111, 112, 3] ++ [0, 0, 0, 0] ++ [0, 0, 0, 0] ++ [0, 0, 0, 0] ++
    [0, 0, 0, 0, 0, 0, 0, 0, 0, 0, 0, 0] ++
    ([0, 0, 0, 0, 0, 0, 0, 0, 0, 0, 0, 0] ++ [0]) ++
    ([0, 0, 0, 0, 0, 0, 0, 0, 0, 0, 0, 0] ++ [0])

/-- The document `emptyDocBytes` parses to. -/
def emptyDoc : Document :=
  { references := [], shots := [], trips := []
    mapping := { origin := { x := 0, y := 0 }, scale := 0 }
    outline := { mapping := { origin := { x := 0, y := 0 }, scale := 0 }, elements := [] }
    sideview := { mapping := { origin := { x := 0, y := 0 }, scale := 0 }, elements := [] } }

/-- Witness for C9: the empty document with one trailing byte appended. -/
theorem parse_ignores_trailing_bytes_witness :
    parse (emptyDocBytes ++ [171]) = .success emptyDoc :=
  parse_ignores_trailing_bytes emptyDocBytes [171] emptyDoc (by decide)

end PocketTopo
